import Mathlib

/-!
Verification of the JWKS key cache and JWT verification pipeline of the
scho1ar backend (src/auth/jwks.rs, src/auth/middleware.rs, src/config.rs).

Modelling conventions:
* machine time (std::time::Instant) is a natural number of seconds; the
  elapsed time between a past instant t and the present now is now - t;
* the HashMap of cached keys is an association list with HashMap-style
  insertion (replace on duplicate key identifier);
* the network fetch of jwks.rs lines 103-120 is an explicit FetchOutcome
  value consumed by refresh_keys: transport failure, non-success HTTP
  status, malformed body, or a parsed JwksResponse document;
* DecodingKey::from_rsa_components belongs to the external jsonwebtoken
  library, so key construction is an oracle parameter
  mk : String -> String -> Option DecodingKey (none models the Err case);
* header strings handled by the middleware are lists of characters, so
  that the byte-level str::strip_prefix of Rust becomes a structural
  recursion on characters;
* stateful methods take the receiver state and return the updated state
  together with the Result value; get_key additionally returns how many
  times refresh_keys was invoked during the call (0 or 1), making the
  refresh count of a resolution observable.
-/

namespace Scho1ar

/-- Signature algorithms the cache can store (jsonwebtoken::Algorithm,
restricted to the variants jwks.rs can produce, lines 140-148). -/
inductive Algorithm
  | RS256
  | RS384
  | RS512
deriving DecidableEq, Repr

/-- Model of jsonwebtoken::DecodingKey: an opaque verification key; we
record the RSA components it was built from. -/
structure DecodingKey where
  n : String
  e : String
deriving DecidableEq, Repr

/-- Individual JWK key entry from the JWKS endpoint (jwks.rs lines 20-39).
The serde defaults make alg, n, e and the use field optional. -/
structure JwkKey where
  kty : String
  kid : String
  alg : Option String
  n : Option String
  e : Option String
  key_use : Option String
deriving DecidableEq, Repr

/-- JWKS response document (jwks.rs lines 14-17). -/
structure JwksResponse where
  keys : List JwkKey
deriving DecidableEq, Repr

/-- Cached decoding key with metadata (jwks.rs lines 42-45). -/
structure CachedKey where
  decoding_key : DecodingKey
  algorithm : Algorithm
deriving DecidableEq, Repr

/-- Error type of the cache (jwks.rs lines 190-200). -/
inductive JwksError
  | FetchError (msg : String)
  | ParseError (msg : String)
  | KeyNotFound (kid : String)
deriving DecidableEq, Repr

/-- Display rendering of JwksError produced by the thiserror derive
(jwks.rs lines 192-199), as used by to_string in middleware.rs line 115. -/
def JwksError.toMessage : JwksError → String
  | .FetchError msg => "Failed to fetch JWKS: " ++ msg
  | .ParseError msg => "Failed to parse JWKS: " ++ msg
  | .KeyNotFound kid => "Key not found: " ++ kid

/-- Clerk configuration (config.rs lines 13-21). -/
structure ClerkConfig where
  jwks_url : String
  issuer : String
  audience : Option String
deriving DecidableEq, Repr

/-- State of the JWKS cache (jwks.rs lines 48-54): the key mapping, the
configured endpoint, the instant of the last successful fetch, and the
freshness window. -/
structure JwksCache where
  keys : List (String × CachedKey)
  jwks_url : String
  last_fetch : Option Nat
  cache_duration : Nat
deriving DecidableEq, Repr

/-- JwksCache::new (jwks.rs lines 58-66): empty mapping, no fetch yet,
one hour cache duration. -/
def JwksCache.new (config : ClerkConfig) : JwksCache :=
  { keys := []
    jwks_url := config.jwks_url
    last_fetch := none
    cache_duration := 3600 }

/-- Lookup in the association list modelling HashMap::get. -/
def mapLookup (kid : String) : List (String × CachedKey) → Option CachedKey
  | [] => none
  | (k, v) :: rest => if k = kid then some v else mapLookup kid rest

/-- Insertion modelling HashMap::insert: the new binding replaces any
existing binding for the same key identifier. -/
def mapInsert (m : List (String × CachedKey)) (k : String) (v : CachedKey) :
    List (String × CachedKey) :=
  (k, v) :: m.filter (fun p => p.1 != k)

/-- Outcome of one HTTP fetch of the JWKS document (jwks.rs lines
103-120): transport failure, non-success status, body that fails JSON
parsing, or a parsed document. -/
inductive FetchOutcome
  | transportFailure (msg : String)
  | httpFailure (status : Nat)
  | badBody (msg : String)
  | ok (jwks : JwksResponse)
deriving DecidableEq, Repr

/-- Algorithm allow-list mapping of jwks.rs lines 140-148: RS256 when the
declared algorithm is RS256 or unspecified, RS384 and RS512 when declared,
none (skip) otherwise. -/
def algOfJwk : Option String → Option Algorithm
  | none => some .RS256
  | some a =>
    if a = "RS256" then some .RS256
    else if a = "RS384" then some .RS384
    else if a = "RS512" then some .RS512
    else none

/-- Body of the per-key loop of refresh_keys (jwks.rs lines 124-164):
skip non-RSA keys, keys missing modulus or exponent, keys with an
algorithm outside the allow-list, and keys whose construction fails;
insert every other key into the accumulator. -/
def process_jwk (mk : String → String → Option DecodingKey)
    (acc : List (String × CachedKey)) (key : JwkKey) :
    List (String × CachedKey) :=
  if key.kty ≠ "RSA" then acc
  else
    match key.n with
    | none => acc
    | some n =>
      match key.e with
      | none => acc
      | some e =>
        match algOfJwk key.alg with
        | none => acc
        | some algorithm =>
          match mk n e with
          | none => acc
          | some decoding_key =>
            mapInsert acc key.kid ⟨decoding_key, algorithm⟩

/-- The new_keys map built by refresh_keys from a parsed document
(jwks.rs lines 122-164). -/
def build_keys (mk : String → String → Option DecodingKey)
    (keys : List JwkKey) : List (String × CachedKey) :=
  keys.foldl (process_jwk mk) []

/-- JwksCache::refresh_keys (jwks.rs lines 100-179): propagate a fetch or
parse failure before touching the state, otherwise replace the whole key
mapping with the newly built one and record the fetch instant. -/
def refresh_keys (mk : String → String → Option DecodingKey) (now : Nat)
    (outcome : FetchOutcome) (self : JwksCache) :
    JwksCache × Except JwksError Unit :=
  match outcome with
  | .transportFailure msg => (self, .error (.FetchError msg))
  | .httpFailure status =>
      (self, .error (.FetchError
        ("JWKS endpoint returned status " ++ toString status)))
  | .badBody msg => (self, .error (.ParseError msg))
  | .ok jwks =>
      ({ self with keys := build_keys mk jwks.keys, last_fetch := some now },
       .ok ())

/-- Staleness test of get_key (jwks.rs lines 71-77): refresh when no fetch
ever succeeded or the last fetch is older than the cache duration. -/
def should_refresh (now : Nat) (self : JwksCache) : Bool :=
  match self.last_fetch with
  | some instant => decide (now - instant > self.cache_duration)
  | none => true

/-- JwksCache::get_key (jwks.rs lines 69-97): return a cached key when
present and fresh; otherwise refresh once and look the key up again,
failing with KeyNotFound when still absent. The middle component counts
the refresh_keys invocations performed by the call. -/
def get_key (mk : String → String → Option DecodingKey) (now : Nat)
    (outcome : FetchOutcome) (kid : String) (self : JwksCache) :
    JwksCache × Nat × Except JwksError (DecodingKey × Algorithm) :=
  let hit : Option CachedKey :=
    match mapLookup kid self.keys with
    | some cached => if should_refresh now self then none else some cached
    | none => none
  match hit with
  | some cached => (self, 0, .ok (cached.decoding_key, cached.algorithm))
  | none =>
    match refresh_keys mk now outcome self with
    | (self', .error e) => (self', 1, .error e)
    | (self', .ok _) =>
      match mapLookup kid self'.keys with
      | some cached => (self', 1, .ok (cached.decoding_key, cached.algorithm))
      | none => (self', 1, .error (.KeyNotFound kid))

/-- Model of str::strip_prefix over character lists: some rest when the
input starts with the given pattern, none otherwise. -/
def strip_pre : List Char → List Char → Option (List Char)
  | [], s => some s
  | _ :: _, [] => none
  | p :: ps, c :: cs => if c = p then strip_pre ps cs else none

/-- extract_bearer_token (middleware.rs lines 61-65): strip a literal
Bearer prefix, then fall back to stripping a literal lowercase bearer
prefix. -/
def extract_bearer_token (auth_header : List Char) : Option (List Char) :=
  match strip_pre "Bearer ".toList auth_header with
  | some t => some t
  | none => strip_pre "bearer ".toList auth_header

/-- The extractor as the specification describes it, for comparison with
the source definition: a case-insensitive match of the scheme word
followed by a space, yielding the remainder of the header. -/
def extract_bearer_token_ci (auth_header : List Char) : Option (List Char) :=
  if (auth_header.take 7).map Char.toLower = "bearer ".toList then
    some (auth_header.drop 7)
  else none

/-- Authentication error responses (middleware.rs lines 22-29). -/
inductive AuthError
  | MissingToken
  | InvalidToken (msg : String)
  | ExpiredToken
  | InvalidIssuer
  | JwksError (msg : String)
deriving DecidableEq, Repr

/-- Decoded JWT header, of which require_auth only uses the key
identifier (middleware.rs lines 104-109). -/
structure JwtHeader where
  kid : Option String
deriving DecidableEq, Repr

/-- JWT claims of a validated Clerk token (claims.rs lines 7-40). -/
structure Claims where
  sub : String
  iss : String
  aud : Option String
  exp : Int
  iat : Int
  nbf : Option Int
  jti : Option String
  azp : Option String
  sid : Option String
  org_id : Option String
  org_role : Option String
  org_slug : Option String
deriving DecidableEq, Repr

/-- Claims::user_id (claims.rs lines 44-46). -/
def Claims.user_id (c : Claims) : String := c.sub

/-- Claims::organization_id (claims.rs lines 49-51). -/
def Claims.organization_id (c : Claims) : Option String := c.org_id

/-- Claims::has_organization (claims.rs lines 54-56). -/
def Claims.has_organization (c : Claims) : Bool := c.org_id.isSome

/-- Failure kinds of the external token decode that require_auth
distinguishes (middleware.rs lines 131-135): expired signature, invalid
issuer, and everything else carrying its display message. -/
inductive DecodeErrorKind
  | ExpiredSignature
  | InvalidIssuer
  | Other (msg : String)
deriving DecidableEq, Repr

/-- Model of the Validation value of the external jsonwebtoken library,
restricted to the fields require_auth configures or that govern the
audience check. -/
structure Validation where
  algorithms : List Algorithm
  iss : Option (List String)
  aud : Option (List String)
  validate_aud : Bool
deriving DecidableEq, Repr

/-- Model of jsonwebtoken Validation::new: one allowed algorithm, no
issuer or audience configured, audience validation enabled by default. -/
def Validation.new (algorithm : Algorithm) : Validation :=
  { algorithms := [algorithm], iss := none, aud := none, validate_aud := true }

/-- Model of jsonwebtoken Validation::set_issuer. -/
def Validation.set_issuer (v : Validation) (items : List String) : Validation :=
  { v with iss := some items }

/-- Model of jsonwebtoken Validation::set_audience. -/
def Validation.set_audience (v : Validation) (items : List String) : Validation :=
  { v with aud := some items }

/-- Validation configuration performed by require_auth (middleware.rs
lines 117-127): start from Validation::new on the resolved algorithm, set
the configured issuer, then either set the configured audience or disable
audience validation entirely. -/
def build_validation (algorithm : Algorithm) (clerk_config : ClerkConfig) :
    Validation :=
  let validation := Validation.new algorithm
  let validation := validation.set_issuer [clerk_config.issuer]
  match clerk_config.audience with
  | some aud => validation.set_audience [aud]
  | none => { validation with validate_aud := false }

/-- Model of the audience check of the external jsonwebtoken library:
skipped entirely when validate_aud is false; when enabled and an audience
list is configured, the token's audience claim must be present and
contained in it. -/
def aud_check (v : Validation) (token_aud : Option String) : Bool :=
  if v.validate_aud then
    match v.aud with
    | some auds =>
      match token_aud with
      | some a => auds.contains a
      | none => false
    | none => true
  else true

/-- require_auth (middleware.rs lines 88-144), with the external
jsonwebtoken calls as oracle parameters: dh models decode_header, dec
models decode with the configured Validation. The cache lookup is an
oracle gk so the middleware pipeline is independent of cache state. -/
def require_auth (dh : List Char → Except String JwtHeader)
    (gk : String → Except JwksError (DecodingKey × Algorithm))
    (dec : List Char → DecodingKey → Validation → Except DecodeErrorKind Claims)
    (clerk_config : ClerkConfig) (auth_header : Option (List Char)) :
    Except AuthError Claims :=
  match auth_header with
  | none => .error .MissingToken
  | some h =>
    match extract_bearer_token h with
    | none => .error .MissingToken
    | some token =>
      match dh token with
      | .error e => .error (.InvalidToken ("Invalid JWT header: " ++ e))
      | .ok header =>
        match header.kid with
        | none => .error (.InvalidToken "Missing key ID in token header")
        | some kid =>
          match gk kid with
          | .error e => .error (.JwksError e.toMessage)
          | .ok (decoding_key, algorithm) =>
            let validation := build_validation algorithm clerk_config
            match dec token decoding_key validation with
            | .error .ExpiredSignature => .error .ExpiredToken
            | .error .InvalidIssuer => .error .InvalidIssuer
            | .error (.Other msg) => .error (.InvalidToken msg)
            | .ok token_data => .ok token_data

/-- Usability of a JWK entry during refresh: the conjunction of the
conditions under which the loop of jwks.rs lines 124-164 inserts the
entry rather than skipping it. -/
def usable_jwk (mk : String → String → Option DecodingKey) (key : JwkKey) :
    Prop :=
  key.kty = "RSA" ∧ ∃ n e, key.n = some n ∧ key.e = some e ∧
    (algOfJwk key.alg).isSome ∧ (mk n e).isSome

lemma mapLookup_filter_ne (m : List (String × CachedKey)) (k kid : String)
    (h : kid ≠ k) :
    mapLookup kid (m.filter (fun p => p.1 != k)) = mapLookup kid m := by
  induction m with
  | nil => rfl
  | cons p rest ih =>
    obtain ⟨k2, v⟩ := p
    by_cases hk : k2 = k
    · subst hk
      have hne : ¬ (k2 = kid) := fun hc => h hc.symm
      simp [List.filter_cons, mapLookup, hne, ih]
    · by_cases hkid : k2 = kid
      · subst hkid
        simp [List.filter_cons, mapLookup, hk]
      · simp [List.filter_cons, mapLookup, hk, hkid, ih]

lemma mapLookup_mapInsert (m : List (String × CachedKey)) (k kid : String)
    (v : CachedKey) :
    mapLookup kid (mapInsert m k v) =
      if k = kid then some v else mapLookup kid m := by
  by_cases h : k = kid
  · subst h; simp [mapInsert, mapLookup]
  · simp [mapInsert, mapLookup, h,
      mapLookup_filter_ne m k kid (fun hc => h hc.symm)]

lemma mapLookup_process_isSome
    (mk : String → String → Option DecodingKey)
    (acc : List (String × CachedKey)) (key : JwkKey) (kid : String) :
    (mapLookup kid (process_jwk mk acc key)).isSome ↔
      (key.kid = kid ∧ usable_jwk mk key) ∨ (mapLookup kid acc).isSome := by
  unfold process_jwk usable_jwk
  by_cases hk : key.kty = "RSA"
  · cases hn : key.n with
    | none => simp [hk, hn]
    | some n =>
      cases he : key.e with
      | none => simp [hk, hn, he]
      | some e =>
        cases halg : algOfJwk key.alg with
        | none => simp [hk, hn, he, halg]
        | some algorithm =>
          cases hmk : mk n e with
          | none => simp [hk, hn, he, halg, hmk]
          | some dk =>
            simp only [hk, hn, he, halg, hmk]
            rw [if_neg (by simp)]
            rw [mapLookup_mapInsert]
            by_cases hkid : key.kid = kid
            · simp [hkid, hk, hn, he, halg, hmk]
            · simp [hkid, hk, hn, he, halg, hmk]
  · simp [process_jwk, hk, usable_jwk]

lemma mapLookup_process_eq_some
    (mk : String → String → Option DecodingKey)
    (acc : List (String × CachedKey)) (key : JwkKey) (kid : String)
    (ck : CachedKey)
    (h : mapLookup kid (process_jwk mk acc key) = some ck) :
    (key.kid = kid ∧ key.kty = "RSA" ∧ ∃ n e, key.n = some n ∧ key.e = some e ∧
      algOfJwk key.alg = some ck.algorithm ∧ mk n e = some ck.decoding_key)
    ∨ mapLookup kid acc = some ck := by
  by_cases hk : key.kty = "RSA"
  · cases hn : key.n with
    | none => simp [process_jwk, hk, hn] at h; exact .inr h
    | some n =>
      cases he : key.e with
      | none => simp [process_jwk, hk, hn, he] at h; exact .inr h
      | some e =>
        cases halg : algOfJwk key.alg with
        | none => simp [process_jwk, hk, hn, he, halg] at h; exact .inr h
        | some algorithm =>
          cases hmk : mk n e with
          | none => simp [process_jwk, hk, hn, he, halg, hmk] at h; exact .inr h
          | some dk =>
            simp only [process_jwk, hk, hn, he, halg, hmk, ne_eq,
              not_true_eq_false, if_false] at h
            rw [mapLookup_mapInsert] at h
            by_cases hkid : key.kid = kid
            · rw [if_pos hkid] at h
              obtain rfl : CachedKey.mk dk algorithm = ck := by
                injection h
              exact .inl ⟨hkid, hk, n, e, rfl, rfl, rfl, hmk⟩
            · rw [if_neg hkid] at h
              exact .inr h
  · simp [process_jwk, hk] at h
    exact .inr h

lemma mapLookup_build_aux_isSome
    (mk : String → String → Option DecodingKey)
    (keys : List JwkKey) (acc : List (String × CachedKey)) (kid : String) :
    (mapLookup kid (keys.foldl (process_jwk mk) acc)).isSome ↔
      (∃ k ∈ keys, k.kid = kid ∧ usable_jwk mk k) ∨
        (mapLookup kid acc).isSome := by
  induction keys generalizing acc with
  | nil => simp
  | cons key rest ih =>
    rw [List.foldl_cons, ih, mapLookup_process_isSome]
    constructor
    · rintro (⟨k, hmem, hk⟩ | (h | h))
      · exact .inl ⟨k, List.mem_cons_of_mem _ hmem, hk⟩
      · exact .inl ⟨key, List.mem_cons_self _ _, h⟩
      · exact .inr h
    · rintro (⟨k, hmem, hk⟩ | h)
      · rcases List.mem_cons.mp hmem with rfl | hmem2
        · exact .inr (.inl hk)
        · exact .inl ⟨k, hmem2, hk⟩
      · exact .inr (.inr h)

lemma mapLookup_build_aux_eq_some
    (mk : String → String → Option DecodingKey)
    (keys : List JwkKey) (acc : List (String × CachedKey)) (kid : String)
    (ck : CachedKey)
    (h : mapLookup kid (keys.foldl (process_jwk mk) acc) = some ck) :
    (∃ k ∈ keys, k.kid = kid ∧ k.kty = "RSA" ∧ ∃ n e, k.n = some n ∧
      k.e = some e ∧ algOfJwk k.alg = some ck.algorithm ∧
      mk n e = some ck.decoding_key)
    ∨ mapLookup kid acc = some ck := by
  induction keys generalizing acc with
  | nil => exact .inr h
  | cons key rest ih =>
    rw [List.foldl_cons] at h
    rcases ih _ h with ⟨k, hmem, hk⟩ | h2
    · exact .inl ⟨k, List.mem_cons_of_mem _ hmem, hk⟩
    · rcases mapLookup_process_eq_some mk acc key kid ck h2 with hkey | hacc
      · exact .inl ⟨key, List.mem_cons_self _ _, hkey⟩
      · exact .inr hacc

lemma algOfJwk_some_isSome_iff (a : String) :
    (algOfJwk (some a)).isSome ↔ a = "RS256" ∨ a = "RS384" ∨ a = "RS512" := by
  by_cases h1 : a = "RS256"
  · simp [algOfJwk, h1]
  · by_cases h2 : a = "RS384"
    · simp [algOfJwk, h1, h2]
    · by_cases h3 : a = "RS512"
      · simp [algOfJwk, h1, h2, h3]
      · simp [algOfJwk, h1, h2, h3]

/-- C1: a successful refresh atomically and wholly replaces the cached key
mapping with the mapping built from the newly fetched document; any key
identifier absent from the new document is unresolvable afterwards, and no
entry of an earlier fetch survives (the resulting mapping is exactly
build_keys of the new document, independent of the previous state). -/
theorem C1_refresh_wholly_replaces
    (mk : String → String → Option DecodingKey) (now : Nat)
    (jwks : JwksResponse) (st : JwksCache) :
    (refresh_keys mk now (.ok jwks) st).2 = .ok () ∧
    (refresh_keys mk now (.ok jwks) st).1.keys = build_keys mk jwks.keys ∧
    ∀ kid, mapLookup kid (build_keys mk jwks.keys) = none →
      mapLookup kid (refresh_keys mk now (.ok jwks) st).1.keys = none := by
  refine ⟨rfl, rfl, fun kid h => ?_⟩
  simpa [refresh_keys] using h

theorem C1_refresh_wholly_replaces_witness :
    mapLookup "old" (refresh_keys (fun n e => some ⟨n, e⟩) 5 (.ok ⟨[]⟩)
      ⟨[("old", ⟨⟨"n0", "e0"⟩, .RS256⟩)], "u", some 0, 3600⟩).1.keys = none :=
  (C1_refresh_wholly_replaces (fun n e => some ⟨n, e⟩) 5 ⟨[]⟩
      ⟨[("old", ⟨⟨"n0", "e0"⟩, .RS256⟩)], "u", some 0, 3600⟩).2.2 "old" rfl

/-- C2: a refresh that fails with FetchError (transport failure or
non-success HTTP status) or ParseError (malformed body) leaves the cache
state exactly unchanged, so every previously cached key remains
resolvable. -/
theorem C2_failed_refresh_preserves_cache
    (mk : String → String → Option DecodingKey) (now : Nat)
    (outcome : FetchOutcome) (st : JwksCache)
    (hfail : ∀ jwks, outcome ≠ FetchOutcome.ok jwks) :
    (refresh_keys mk now outcome st).1 = st ∧
    ((∃ msg, (refresh_keys mk now outcome st).2 = .error (.FetchError msg)) ∨
     (∃ msg, (refresh_keys mk now outcome st).2 = .error (.ParseError msg))) ∧
    ∀ kid, mapLookup kid (refresh_keys mk now outcome st).1.keys =
      mapLookup kid st.keys := by
  cases outcome with
  | transportFailure msg => exact ⟨rfl, .inl ⟨msg, rfl⟩, fun kid => rfl⟩
  | httpFailure status => exact ⟨rfl, .inl ⟨_, rfl⟩, fun kid => rfl⟩
  | badBody msg => exact ⟨rfl, .inr ⟨msg, rfl⟩, fun kid => rfl⟩
  | ok jwks => exact absurd rfl (hfail jwks)

theorem C2_failed_refresh_preserves_cache_witness :
    (refresh_keys (fun n e => some ⟨n, e⟩) 7 (.transportFailure "timeout")
      ⟨[("k", ⟨⟨"n0", "e0"⟩, .RS256⟩)], "u", some 1, 3600⟩).1 =
      ⟨[("k", ⟨⟨"n0", "e0"⟩, .RS256⟩)], "u", some 1, 3600⟩ :=
  (C2_failed_refresh_preserves_cache (fun n e => some ⟨n, e⟩) 7
      (.transportFailure "timeout")
      ⟨[("k", ⟨⟨"n0", "e0"⟩, .RS256⟩)], "u", some 1, 3600⟩
      (fun _ h => FetchOutcome.noConfusion h)).1

/-- C3: a key present in the mapping is returned immediately, without any
refresh and without changing the state, whenever the last successful fetch
is within the one-hour freshness window; and the staleness test holds
exactly when no fetch ever succeeded or the last fetch is older than one
hour. -/
theorem C3_fresh_hit_no_refresh
    (mk : String → String → Option DecodingKey) (now : Nat)
    (outcome : FetchOutcome) (kid : String) :
    (∀ st : JwksCache, st.cache_duration = 3600 →
      (should_refresh now st = true ↔
        st.last_fetch = none ∨ ∃ t, st.last_fetch = some t ∧ now - t > 3600)) ∧
    (∀ (st : JwksCache) (t : Nat) (cached : CachedKey),
      st.cache_duration = 3600 → st.last_fetch = some t → now - t ≤ 3600 →
      mapLookup kid st.keys = some cached →
      get_key mk now outcome kid st =
        (st, 0, .ok (cached.decoding_key, cached.algorithm))) := by
  constructor
  · intro st hdur
    cases hf : st.last_fetch with
    | none => simp [should_refresh, hf]
    | some t => simp [should_refresh, hf, hdur]
  · intro st t cached hdur hfetch hfresh hhit
    have hsr : should_refresh now st = false := by
      simp [should_refresh, hfetch, hdur]
      omega
    simp [get_key, hhit, hsr]

theorem C3_fresh_hit_no_refresh_witness :
    get_key (fun n e => some ⟨n, e⟩) 100 (.transportFailure "down") "k"
      ⟨[("k", ⟨⟨"n0", "e0"⟩, .RS256⟩)], "u", some 50, 3600⟩ =
      (⟨[("k", ⟨⟨"n0", "e0"⟩, .RS256⟩)], "u", some 50, 3600⟩, 0,
        .ok (⟨"n0", "e0"⟩, .RS256)) :=
  (C3_fresh_hit_no_refresh (fun n e => some ⟨n, e⟩) 100
      (.transportFailure "down") "k").2
    ⟨[("k", ⟨⟨"n0", "e0"⟩, .RS256⟩)], "u", some 50, 3600⟩ 50
    ⟨⟨"n0", "e0"⟩, .RS256⟩ rfl rfl (by decide) rfl

/-- C4: a key identifier absent both from the current mapping and from the
key-set produced by the fetch makes get_key perform exactly one refresh
(the refresh count of the call is 1) and then fail with KeyNotFound for
that identifier. -/
theorem C4_absent_key_one_refresh
    (mk : String → String → Option DecodingKey) (now : Nat)
    (jwks : JwksResponse) (kid : String) (st : JwksCache)
    (hcache : mapLookup kid st.keys = none)
    (hnew : mapLookup kid (build_keys mk jwks.keys) = none) :
    get_key mk now (.ok jwks) kid st =
      ({ st with keys := build_keys mk jwks.keys, last_fetch := some now },
       1, .error (.KeyNotFound kid)) := by
  simp [get_key, refresh_keys, hcache, hnew]

theorem C4_absent_key_one_refresh_witness :
    get_key (fun n e => some ⟨n, e⟩) 9
      (.ok ⟨[⟨"RSA", "other", none, some "n1", some "e1", none⟩]⟩)
      "missing" ⟨[], "u", none, 3600⟩ =
      (⟨[("other", ⟨⟨"n1", "e1"⟩, .RS256⟩)], "u", some 9, 3600⟩, 1,
        .error (.KeyNotFound "missing")) :=
  C4_absent_key_one_refresh (fun n e => some ⟨n, e⟩) 9
    ⟨[⟨"RSA", "other", none, some "n1", some "e1", none⟩]⟩
    "missing" ⟨[], "u", none, 3600⟩ rfl (by decide)

/-- C5: the mapping built by a successful refresh contains exactly the
key identifiers of entries that are RSA, carry both modulus and exponent,
declare an allow-listed algorithm (RS256 by default), and whose key
construction succeeds; every cached entry originates from such a document
entry; the allow-list is exactly RS256, RS384, RS512 with RS256 as the
default; and a refresh over a parsed document never fails, whatever gets
skipped. -/
theorem C5_refresh_filters_keys
    (mk : String → String → Option DecodingKey) (keys : List JwkKey) :
    (∀ kid, (mapLookup kid (build_keys mk keys)).isSome ↔
      ∃ k ∈ keys, k.kid = kid ∧ usable_jwk mk k) ∧
    (∀ kid ck, mapLookup kid (build_keys mk keys) = some ck →
      ∃ k ∈ keys, k.kid = kid ∧ k.kty = "RSA" ∧ ∃ n e, k.n = some n ∧
        k.e = some e ∧ algOfJwk k.alg = some ck.algorithm ∧
        mk n e = some ck.decoding_key) ∧
    (∀ a, (algOfJwk (some a)).isSome ↔
      a = "RS256" ∨ a = "RS384" ∨ a = "RS512") ∧
    algOfJwk none = some .RS256 ∧
    (∀ now st, (refresh_keys mk now (.ok ⟨keys⟩) st).2 = .ok ()) := by
  refine ⟨fun kid => ?_, fun kid ck h => ?_, algOfJwk_some_isSome_iff, rfl,
    fun now st => rfl⟩
  · rw [build_keys, mapLookup_build_aux_isSome]
    simp [mapLookup]
  · rcases mapLookup_build_aux_eq_some mk keys [] kid ck h with h2 | h2
    · exact h2
    · simp [mapLookup] at h2

theorem C5_refresh_filters_keys_witness :
    ∃ k ∈ [JwkKey.mk "EC" "k0" (some "ES256") (some "x") (some "y") none,
           JwkKey.mk "RSA" "k1" (some "RS384") (some "n1") (some "e1") (some "sig"),
           JwkKey.mk "RSA" "k2" none none (some "e2") none],
      k.kid = "k1" ∧ k.kty = "RSA" ∧ ∃ n e, k.n = some n ∧ k.e = some e ∧
        algOfJwk k.alg = some (CachedKey.mk ⟨"n1", "e1"⟩ .RS384).algorithm ∧
        (fun n e => some (DecodingKey.mk n e)) n e =
          some (CachedKey.mk ⟨"n1", "e1"⟩ .RS384).decoding_key :=
  (C5_refresh_filters_keys (fun n e => some ⟨n, e⟩)
    [⟨"EC", "k0", some "ES256", some "x", some "y", none⟩,
     ⟨"RSA", "k1", some "RS384", some "n1", some "e1", some "sig"⟩,
     ⟨"RSA", "k2", none, none, some "e2", none⟩]).2.1 "k1"
    ⟨⟨"n1", "e1"⟩, .RS384⟩ (by decide)

/-- C8 counterexample: with a cache in the state produced by a successful
zero-key refresh at time 0 (empty mapping, timestamp recorded), a
resolution at time 10 is well inside the freshness window, yet get_key
performs a refresh (refresh count 1), where the claim requires that no
further refresh is triggered. -/
theorem C8_counterexample :
    should_refresh 10 ⟨[], "u", some 0, 3600⟩ = false ∧
    (get_key (fun n e => some ⟨n, e⟩) 10 (.ok ⟨[]⟩) "kid"
      ⟨[], "u", some 0, 3600⟩).2.1 = 1 :=
  ⟨rfl, rfl⟩

/-- C8 (amended): a refresh whose document yields zero usable keys is a
successful refresh — it replaces the mapping with the empty mapping and
records the fetch timestamp — and every subsequent resolution fails with
KeyNotFound; however each such resolution triggers another refresh (count
1, not 0), because a cache miss always refreshes regardless of
freshness. -/
theorem C8_empty_refresh_success
    (mk : String → String → Option DecodingKey) (now now2 : Nat)
    (jwks jwks2 : JwksResponse) (st : JwksCache) (kid : String)
    (h1 : build_keys mk jwks.keys = [])
    (h2 : build_keys mk jwks2.keys = []) :
    refresh_keys mk now (.ok jwks) st =
      ({ st with keys := [], last_fetch := some now }, .ok ()) ∧
    get_key mk now2 (.ok jwks2) kid
      { st with keys := [], last_fetch := some now } =
      ({ st with keys := [], last_fetch := some now2 }, 1,
        .error (.KeyNotFound kid)) := by
  constructor
  · simp [refresh_keys, h1]
  · simp [get_key, refresh_keys, h2, mapLookup]

theorem C8_empty_refresh_success_witness :
    refresh_keys (fun n e => some ⟨n, e⟩) 3 (.ok ⟨[]⟩)
      ⟨[("k", ⟨⟨"n0", "e0"⟩, .RS256⟩)], "u", some 0, 3600⟩ =
      (⟨[], "u", some 3, 3600⟩, .ok ()) ∧
    get_key (fun n e => some ⟨n, e⟩) 10 (.ok ⟨[]⟩) "kid"
      ⟨[], "u", some 3, 3600⟩ =
      (⟨[], "u", some 10, 3600⟩, 1, .error (.KeyNotFound "kid")) :=
  C8_empty_refresh_success (fun n e => some ⟨n, e⟩) 3 10 ⟨[]⟩ ⟨[]⟩
    ⟨[("k", ⟨⟨"n0", "e0"⟩, .RS256⟩)], "u", some 0, 3600⟩ "kid" rfl rfl

/-- C10: the use field of a key-set entry plays no role during refresh:
processing an entry is invariant under replacing its use field, and an RSA
entry with complete components and an allow-listed algorithm is cached
whatever its use field holds. -/
theorem C10_use_field_ignored
    (mk : String → String → Option DecodingKey) (u : Option String) :
    (∀ (acc : List (String × CachedKey)) (key : JwkKey),
      process_jwk mk acc { key with key_use := u } = process_jwk mk acc key) ∧
    (∀ (kid : String) (alg n e : Option String) (nv ev : String)
       (a : Algorithm) (dk : DecodingKey),
      n = some nv → e = some ev → algOfJwk alg = some a → mk nv ev = some dk →
      mapLookup kid (build_keys mk [⟨"RSA", kid, alg, n, e, u⟩]) =
        some ⟨dk, a⟩) := by
  constructor
  · intro acc key
    cases key
    rfl
  · intro kid alg n e nv ev a dk hn he halg hmk
    subst hn he
    simp [build_keys, process_jwk, halg, hmk, mapInsert, mapLookup]

theorem C10_use_field_ignored_witness :
    mapLookup "k" (build_keys (fun n e => some ⟨n, e⟩)
      [⟨"RSA", "k", some "RS512", some "n1", some "e1", some "enc"⟩]) =
      some ⟨⟨"n1", "e1"⟩, .RS512⟩ :=
  (C10_use_field_ignored (fun n e => some ⟨n, e⟩) (some "enc")).2 "k"
    (some "RS512") (some "n1") (some "e1") "n1" "e1" .RS512 ⟨"n1", "e1"⟩
    rfl rfl rfl rfl

lemma strip_pre_append (p s : List Char) : strip_pre p (p ++ s) = some s := by
  induction p with
  | nil => rfl
  | cons c cs ih => simp [strip_pre, ih]

lemma strip_pre_eq_some (p : List Char) :
    ∀ h s, strip_pre p h = some s → h = p ++ s := by
  induction p with
  | nil =>
    intro h s hs
    have hs2 : some h = some s := hs
    simpa using Option.some.inj hs2
  | cons c cs ih =>
    intro h s hs
    cases h with
    | nil => exact absurd hs (by simp [strip_pre])
    | cons c2 h2 =>
      by_cases hc : c2 = c
      · subst hc
        rw [strip_pre, if_pos rfl] at hs
        rw [List.cons_append, ih h2 s hs]
      · rw [strip_pre, if_neg hc] at hs
        exact absurd hs (by simp)

/-- C6 counterexample: the header BEARER abc123 matches the scheme word
case-insensitively, so the claim's reading of the extractor yields abc123,
but the source extractor, which only strips the two literal spellings
Bearer and bearer, yields nothing. -/
theorem C6_counterexample :
    extract_bearer_token ("BEARER abc123".toList) = none ∧
    extract_bearer_token_ci ("BEARER abc123".toList) =
      some ("abc123".toList) :=
  ⟨by decide, by decide⟩

/-- C6 (amended): extract_bearer_token yields the text after the scheme
word exactly when the header starts with the literal spelling Bearer
followed by a space, or the literal all-lowercase spelling bearer followed
by a space — not under full case-insensitive matching; in every other
case, including Basic abc123 and a bare abc123, it yields nothing and
authentication fails with MissingToken. -/
theorem C6_two_exact_spellings (s : List Char) :
    extract_bearer_token ("Bearer ".toList ++ s) = some s ∧
    extract_bearer_token ("bearer ".toList ++ s) = some s ∧
    (∀ h t, extract_bearer_token h = some t →
      h = "Bearer ".toList ++ t ∨ h = "bearer ".toList ++ t) ∧
    (∀ dh gk dec cfg h, extract_bearer_token h = none →
      require_auth dh gk dec cfg (some h) = .error .MissingToken) ∧
    extract_bearer_token ("Basic abc123".toList) = none ∧
    extract_bearer_token ("abc123".toList) = none := by
  refine ⟨?_, ?_, ?_, ?_, by decide, by decide⟩
  · unfold extract_bearer_token
    rw [strip_pre_append]
  · have hnone : strip_pre ("Bearer ".toList) ("bearer ".toList ++ s) = none := by
      rw [show ("Bearer ".toList) = 'B' :: "earer ".toList from rfl,
        show ("bearer ".toList ++ s) = 'b' :: ("earer ".toList ++ s) from rfl]
      rw [strip_pre, if_neg (by decide)]
    unfold extract_bearer_token
    rw [hnone]
    exact strip_pre_append _ _
  · intro h t hex
    unfold extract_bearer_token at hex
    cases h1 : strip_pre ("Bearer ".toList) h with
    | some t2 =>
      rw [h1] at hex
      have hex2 : some t2 = some t := hex
      obtain rfl : t2 = t := Option.some.inj hex2
      exact .inl (strip_pre_eq_some _ h _ h1)
    | none =>
      rw [h1] at hex
      have hex2 : strip_pre ("bearer ".toList) h = some t := hex
      exact .inr (strip_pre_eq_some _ h t hex2)
  · intro dh gk dec cfg h hnone
    simp [require_auth, hnone]

theorem C6_two_exact_spellings_witness :
    extract_bearer_token ("Bearer abc123".toList) = some ("abc123".toList) ∧
    require_auth (fun _ => .error "bad") (fun kid => .error (.KeyNotFound kid))
      (fun _ _ _ => .error (.Other "sig")) ⟨"u", "i", none⟩
      (some ("Basic abc123".toList)) = .error .MissingToken :=
  ⟨(C6_two_exact_spellings ("abc123".toList)).1,
   (C6_two_exact_spellings ("abc123".toList)).2.2.2.1
     (fun _ => .error "bad") (fun kid => .error (.KeyNotFound kid))
     (fun _ _ _ => .error (.Other "sig")) ⟨"u", "i", none⟩
     ("Basic abc123".toList) (by decide)⟩

/-- C7: when no expected audience is configured, require_auth disables
audience validation, so the audience check passes for a token with any
audience claim or none; when an expected audience is configured, a token
whose audience claim differs from it fails the audience check. -/
theorem C7_audience_check (algorithm : Algorithm) (cfg : ClerkConfig) :
    (cfg.audience = none →
      (build_validation algorithm cfg).validate_aud = false ∧
      ∀ token_aud, aud_check (build_validation algorithm cfg) token_aud = true) ∧
    (∀ expected a, cfg.audience = some expected → a ≠ expected →
      aud_check (build_validation algorithm cfg) (some a) = false) := by
  constructor
  · intro hnone
    refine ⟨?_, fun token_aud => ?_⟩ <;>
      simp [build_validation, Validation.new, Validation.set_issuer,
        aud_check, hnone]
  · intro expected a hsome hne
    simp [build_validation, Validation.new, Validation.set_issuer,
      Validation.set_audience, aud_check, hsome, hne]

theorem C7_audience_check_witness :
    aud_check (build_validation .RS256 ⟨"u", "i", none⟩) (some "anything") =
      true ∧
    aud_check (build_validation .RS256 ⟨"u", "i", some "expected"⟩)
      (some "other") = false :=
  ⟨((C7_audience_check .RS256 ⟨"u", "i", none⟩).1 rfl).2 (some "anything"),
   (C7_audience_check .RS256 ⟨"u", "i", some "expected"⟩).2 "expected"
     "other" rfl (by decide)⟩

/-- C9: for the header consisting of exactly the scheme word Bearer and a
space, the extractor yields the empty token rather than nothing, so
authentication cannot fail with MissingToken; when the external header
decode rejects the empty token, the pipeline fails with InvalidToken. -/
theorem C9_empty_token_invalid
    (dh : List Char → Except String JwtHeader)
    (gk : String → Except JwksError (DecodingKey × Algorithm))
    (dec : List Char → DecodingKey → Validation → Except DecodeErrorKind Claims)
    (cfg : ClerkConfig) (msg : String) (hdh : dh [] = .error msg) :
    extract_bearer_token ("Bearer ".toList) = some [] ∧
    (∀ dh2 gk2 dec2 cfg2,
      require_auth dh2 gk2 dec2 cfg2 (some ("Bearer ".toList)) ≠
        .error .MissingToken) ∧
    require_auth dh gk dec cfg (some ("Bearer ".toList)) =
      .error (.InvalidToken ("Invalid JWT header: " ++ msg)) := by
  have hex : extract_bearer_token ("Bearer ".toList) = some [] := by decide
  refine ⟨hex, ?_, ?_⟩
  · intro dh2 gk2 dec2 cfg2
    simp only [require_auth, hex]
    cases hd : dh2 [] with
    | error e => simp
    | ok header =>
      cases hk : header.kid with
      | none => simp [hk]
      | some kid =>
        cases hg : gk2 kid with
        | error e => simp [hk, hg]
        | ok p =>
          obtain ⟨dk, alg⟩ := p
          cases hdec : dec2 [] dk (build_validation alg cfg2) with
          | error k => cases k <;> simp [hk, hg, hdec]
          | ok c => simp [hk, hg, hdec]
  · simp only [require_auth, hex]
    rw [hdh]

theorem C9_empty_token_invalid_witness :
    require_auth (fun _ => .error "empty token")
      (fun kid => .error (.KeyNotFound kid))
      (fun _ _ _ => .error (.Other "sig")) ⟨"u", "i", none⟩
      (some ("Bearer ".toList)) =
      .error (.InvalidToken ("Invalid JWT header: " ++ "empty token")) :=
  (C9_empty_token_invalid (fun _ => .error "empty token")
      (fun kid => .error (.KeyNotFound kid))
      (fun _ _ _ => .error (.Other "sig")) ⟨"u", "i", none⟩
      "empty token" rfl).2.2

end Scho1ar
